import Mathlib

/-!
Verification of the `foll-rs` rolling-file writer.

This file gives a shallow embedding of the three source files
(`src/file.rs`, `src/rolling.rs`, `src/rolling/condition.rs`) and proves
the spec's claims about them.  External effects (the filesystem, the
clock, the `time` crate's formatting) are passed in as explicit data:

* `FileStat.created` and the clock are integers (seconds-like timestamps);
* a formatted timestamp (`time::OffsetDateTime::now_utc().format(..)`)
  is an input `String`;
* the outcome of each raw I/O call (bytes accepted by the buffered
  writer, per-entry metadata errors, remove-file errors, ...) is an
  explicit oracle field or argument, so the Rust `?` plumbing is
  modelled exactly;
* Rust's `panic!` (process abort) is modelled by a dedicated
  `BuildResult.panicked` constructor, kept distinct from `Except.error`
  which models an `Err` return value.
-/

deriving instance DecidableEq for Except

namespace Foll

/-! ### `src/file.rs` -/

/-- `FileStat`: `created` (filesystem creation timestamp) and `len`
(bytes, `usize` in the source). -/
structure FileStat where
  created : Int
  len : Nat
deriving Repr, DecidableEq

/-- `FileOpenOptions { truncate: bool }`, default `truncate = false`. -/
structure FileOpenOptions where
  truncate : Bool := false
deriving Repr, DecidableEq

/-- `File`: a buffered handle plus its `FileStat`.  The buffered handle
itself is external; `flushErr` is the oracle for what `BufWriter::flush`
would return. -/
structure File where
  stat : FileStat
  flushErr : Option String := none
deriving Repr, DecidableEq

/-- `File::open`: opens with `append = !truncate`, `truncate = truncate`,
then seeds the stat from the file's metadata.  `preexisting` is the size
the file had before the call (`none` when the file did not exist, so it
is created empty); after opening, the metadata length is `0` when the
open truncated, otherwise the pre-existing size (`0` for a fresh file).
`createdAt` is the creation timestamp the metadata reports.  (Named
`openFile` because `open` is reserved in Lean.) -/
def File.openFile (createdAt : Int) (preexisting : Option Nat)
    (options : FileOpenOptions) : File :=
  { stat :=
      { created := createdAt
        len := if options.truncate then 0 else preexisting.getD 0 }
    flushErr := none }

/-- `File::write`: forwards to the inner buffered writer (whose outcome
is the oracle `ioResult`) and on success adds the accepted byte count to
`stat.len`, returning that count. -/
def File.write (f : File) (ioResult : Except String Nat) :
    Except String (Nat × File) :=
  ioResult.map fun written_bytes =>
    (written_bytes,
     { f with stat := { f.stat with len := f.stat.len + written_bytes } })

/-- `File::flush`: forwards to the inner writer; the stat is untouched. -/
def File.flush (f : File) : Except String Unit :=
  match f.flushErr with
  | some e => .error e
  | none => .ok ()

/-- Iterate `File::write` over a sequence of raw-I/O outcomes; a failed
write leaves the file (hence its length) unchanged and the caller moves
on to the next write. -/
def File.writeSeq (f : File) : List (Except String Nat) → File
  | [] => f
  | r :: rs =>
    match f.write r with
    | .error _ => f.writeSeq rs
    | .ok (_, f') => f'.writeSeq rs

/-- Total bytes accepted by the successful writes of a raw-I/O outcome
sequence. -/
def okBytes (rs : List (Except String Nat)) : Nat :=
  (rs.filterMap fun r =>
    match r with
    | .ok n => some n
    | .error _ => none).sum

/-! ### `src/rolling/condition.rs` -/

/-- Outcome of a Rust constructor that may `panic!`.  `panicked` models a
process abort, not an `Err` return value. -/
inductive BuildResult (α : Type) where
  | ok : α → BuildResult α
  | panicked : String → BuildResult α
deriving Repr, DecidableEq

/-- Whether the constructor panicked (aborted the process). -/
def BuildResult.isPanic : BuildResult α → Bool
  | .ok _ => false
  | .panicked _ => true

/-- `RollingBySize { desired_size: usize }`. -/
structure RollingBySize where
  desired_size : Nat
deriving Repr, DecidableEq

/-- `RollingBySize::new`: `panic!`s when `desired_size == 0`. -/
def RollingBySize.new (desired_size : Nat) : BuildResult RollingBySize :=
  if desired_size = 0 then
    .panicked "desired_size must be greater than 0"
  else
    .ok { desired_size }

/-- `RollingBySize::should_roll`: `Ok(self.desired_size <= stat.len())`. -/
def RollingBySize.shouldRoll (c : RollingBySize) (stat : FileStat) :
    Except String Bool :=
  .ok (decide (c.desired_size ≤ stat.len))

/-- `RollingByDuration { duration: Duration }`; a `std::time::Duration`
is non-negative, modelled as a `Nat`. -/
structure RollingByDuration where
  duration : Nat
deriving Repr, DecidableEq

/-- `RollingByDuration::new`: `panic!`s when `duration.is_zero()`. -/
def RollingByDuration.new (duration : Nat) : BuildResult RollingByDuration :=
  if duration = 0 then
    .panicked "duration must be greater than 0"
  else
    .ok { duration }

/-- `RollingByDuration::should_roll`:
`Ok(stat.created() + self.duration <= OffsetDateTime::now_utc())`; the
clock reading is the explicit argument `now`. -/
def RollingByDuration.shouldRoll (c : RollingByDuration) (now : Int)
    (stat : FileStat) : Except String Bool :=
  .ok (decide (stat.created + (c.duration : Int) ≤ now))

/-! ### `src/rolling.rs` — default naming policy

The source field `file_name_prefix` is rendered as `file_name_pfx`.
The `time` crate's format-and-now step is external, so
`next_file_name` takes the formatted timestamp as the argument
`datetime`; the format-string parse error path is outside the model. -/

/-- Internal state of `DefaultRollingFileNameProvider`.  The hit counter
is a `u64` in the source; arithmetic is taken modulo `2 ^ 64`. -/
structure DefaultRollingFileNameProvider where
  file_name_pfx : Option String
  file_name_suffix : Option String
  prev_file_name_datetime : Option String
  prev_file_name_datetime_hits : Nat
deriving Repr, DecidableEq

/-- `DefaultRollingFileNameProvider::acceptable`: reject when a
configured file-name beginning does not match, reject when a configured
suffix does not match, otherwise `Ok(true)`. -/
def DefaultRollingFileNameProvider.acceptable
    (p : DefaultRollingFileNameProvider) (file_name : String) :
    Except String Bool :=
  if p.file_name_pfx.any (fun s => !file_name.startsWith s) then
    .ok false
  else if p.file_name_suffix.any (fun s => !file_name.endsWith s) then
    .ok false
  else
    .ok true

/-- `DefaultRollingFileNameProvider::next_file_name`: bump the hit
counter when the formatted timestamp repeats, otherwise remember the new
timestamp and reset the counter to `0`; the produced name carries a
`-N` disambiguator exactly when the counter is non-zero.  In both
branches `prev_file_name_datetime` is `Some(datetime)` at the point the
name is built, so the name is rendered from `datetime` directly. -/
def DefaultRollingFileNameProvider.next_file_name
    (p : DefaultRollingFileNameProvider) (datetime : String) :
    String × DefaultRollingFileNameProvider :=
  let pfx := p.file_name_pfx.getD ""
  let suffix := p.file_name_suffix.getD ""
  let p' :=
    if p.prev_file_name_datetime = some datetime then
      { p with
        prev_file_name_datetime_hits :=
          (p.prev_file_name_datetime_hits + 1) % 2 ^ 64 }
    else
      { p with
        prev_file_name_datetime := some datetime
        prev_file_name_datetime_hits := 0 }
  if p'.prev_file_name_datetime_hits = 0 then
    (pfx ++ datetime ++ suffix, p')
  else
    (pfx ++ datetime ++ "-" ++ toString p'.prev_file_name_datetime_hits
       ++ suffix, p')

/-! ### `src/rolling.rs` — rotation engine -/

/-- `RollingFile<T>`.  The boxed `dyn RollingCondition` trait objects
are functions from the active file's stat to the condition's result. -/
structure RollingFile (T : Type) where
  file : Option File
  directory : String
  file_name_provider : T
  file_open_options : FileOpenOptions
  max_file_count : Option Nat
  rolling_conditions : List (FileStat → Except String Bool)

/-- The `for` loop inside `RollingFile::should_roll`: try each attached
condition in order; an `Err` propagates via `?`, a `true` short-circuits
to `Ok(true)`, and falling off the end yields `Ok(false)`. -/
def condAny (stat : FileStat) :
    List (FileStat → Except String Bool) → Except String Bool
  | [] => .ok false
  | c :: cs =>
    match c stat with
    | .error e => .error e
    | .ok true => .ok true
    | .ok false => condAny stat cs

/-- `RollingFile::should_roll`: `Ok(true)` when no file is open,
otherwise the ordered OR of the attached conditions on the current
file's stat. -/
def RollingFile.shouldRoll (rf : RollingFile T) : Except String Bool :=
  match rf.file with
  | none => .ok true
  | some file => condAny file.stat rf.rolling_conditions

/-- `<RollingFile as Write>::flush`: flush the open file if any,
otherwise `Ok(())`.  The engine state is returned alongside to make
explicit that it is not modified. -/
def RollingFile.flush (rf : RollingFile T) :
    Except String Unit × RollingFile T :=
  match rf.file with
  | some file => (file.flush, rf)
  | none => (.ok (), rf)

/-! ### `src/rolling.rs` — retention prune (`RollingFile::something`)

The directory is a snapshot `Dir`: the entries `fs::read_dir` would
yield, each carrying the outcomes of the raw calls made on it
(`entry?`, `fs::metadata`, `metadata.created()`, `fs::remove_file`). -/

/-- One directory entry together with its I/O oracles. -/
structure FsEntry where
  name : String
  isFile : Bool
  created : Nat
  entryErr : Option String := none
  metaErr : Option String := none
  createdErr : Option String := none
  removeErr : Option String := none
deriving Repr, DecidableEq

/-- A directory snapshot; `listErr` is the outcome of `fs::read_dir`. -/
structure Dir where
  listErr : Option String := none
  entries : List FsEntry
deriving Repr, DecidableEq

/-- The first collect: pair every entry with its metadata, stopping at
the first `entry?` or `fs::metadata` failure. -/
def collectEntries : List FsEntry → Except String (List FsEntry)
  | [] => .ok []
  | e :: es =>
    match e.entryErr with
    | some err => .error err
    | none =>
      match e.metaErr with
      | some err => .error err
      | none => (collectEntries es).map (e :: ·)

/-- The `filter_map` + collect: drop non-regular files, drop names the
provider rejects, abort on an `acceptable` error, then pair each
survivor with `metadata.created()`, aborting on a `created` error. -/
def selectLogFiles (acc : String → Except String Bool) :
    List FsEntry → Except String (List (FsEntry × Nat))
  | [] => .ok []
  | e :: es =>
    if !e.isFile then
      selectLogFiles acc es
    else
      match acc e.name with
      | .error err => .error err
      | .ok false => selectLogFiles acc es
      | .ok true =>
        match e.createdErr with
        | some err => .error err
        | none => (selectLogFiles acc es).map ((e, e.created) :: ·)

/-- Insert into a list kept in descending `created` order. -/
def insertByCreatedDesc (p : FsEntry × Nat) :
    List (FsEntry × Nat) → List (FsEntry × Nat)
  | [] => [p]
  | q :: qs =>
    if q.2 ≤ p.2 then p :: q :: qs else q :: insertByCreatedDesc p qs

/-- `log_files.sort_unstable_by_key(|(_, created)| Reverse(created))`:
sort descending by creation time (ties in an unspecified order; this
refinement is an insertion sort). -/
def sortByCreatedDesc : List (FsEntry × Nat) → List (FsEntry × Nat)
  | [] => []
  | p :: ps => insertByCreatedDesc p (sortByCreatedDesc ps)

/-- The deletion loop: `fs::remove_file` each entry in order, stopping
at the first failure.  Returns the names actually deleted (in deletion
order) together with the loop's outcome. -/
def removeAll : List (FsEntry × Nat) → List String × Except String Unit
  | [] => ([], .ok ())
  | p :: ps =>
    match p.1.removeErr with
    | some err => ([], .error err)
    | none =>
      let r := removeAll ps
      (p.1.name :: r.1, r.2)

/-- `RollingFile::something` (the retention prune): no-op without a
`max_file_count`; otherwise list the directory, collect metadata, select
the provider-accepted regular files, sort them newest-first and delete
everything past the first `max_file_count` of them.  Returns the deleted
names and the outcome. -/
def something (acc : String → Except String Bool)
    (max_file_count : Option Nat) (d : Dir) :
    List String × Except String Unit :=
  match max_file_count with
  | none => ([], .ok ())
  | some k =>
    match d.listErr with
    | some err => ([], .error err)
    | none =>
      match collectEntries d.entries with
      | .error err => ([], .error err)
      | .ok entries =>
        match selectLogFiles acc entries with
        | .error err => ([], .error err)
        | .ok log_files => removeAll ((sortByCreatedDesc log_files).drop k)

/-- Whether the prune treats an entry as one of its log files: a regular
file whose name the provider accepts. -/
def isLogFile (acc : String → Except String Bool) (e : FsEntry) : Bool :=
  e.isFile &&
    match acc e.name with
    | .ok true => true
    | _ => false

/-! ## Theorems -/

-- Bytes accepted by the head of a raw-I/O outcome sequence.
theorem okBytes_cons_ok (n : Nat) (rs : List (Except String Nat)) :
    okBytes (.ok n :: rs) = n + okBytes rs := by
  simp [okBytes, List.filterMap_cons]

theorem okBytes_cons_error (e : String) (rs : List (Except String Nat)) :
    okBytes (.error e :: rs) = okBytes rs := by
  simp [okBytes, List.filterMap_cons]

/-- C9: after `File::open` the tracked length is the pre-existing size
(`0` for a newly created or truncated file); a successful write adds
exactly the accepted byte count and a failed write adds nothing, so
after any sequence of writes the length is the open-time seed plus the
cumulative bytes the successful writes accepted. -/
theorem file_length_is_seed_plus_written :
    (∀ createdAt preexisting options,
      (File.openFile createdAt preexisting options).stat.len =
        if options.truncate then 0 else preexisting.getD 0) ∧
    (∀ createdAt options,
      (File.openFile createdAt none options).stat.len = 0) ∧
    (∀ createdAt preexisting,
      (File.openFile createdAt preexisting { truncate := true }).stat.len = 0) ∧
    (∀ (f : File) (n : Nat), f.write (.ok n) =
      .ok (n, { f with stat := { f.stat with len := f.stat.len + n } })) ∧
    (∀ (f : File) (e : String),
      f.write (.error e) = (.error e : Except String (Nat × File))) ∧
    (∀ (f : File) (rs : List (Except String Nat)),
      (f.writeSeq rs).stat.len = f.stat.len + okBytes rs) := by
  refine ⟨fun _ _ _ => rfl, fun c o => ?_, fun c p => rfl, fun f n => rfl,
    fun f e => rfl, fun f rs => ?_⟩
  · cases o with
    | mk t => cases t <;> rfl
  · induction rs generalizing f with
    | nil => simp [File.writeSeq, okBytes]
    | cons r rs ih =>
      cases r with
      | error e =>
        simp [File.writeSeq, File.write, Except.map, okBytes_cons_error, ih]
      | ok n =>
        simp [File.writeSeq, File.write, Except.map, okBytes_cons_ok, ih,
          Nat.add_assoc]

/-- C10: flushing the engine while no file is open succeeds and leaves
the engine state untouched (in particular it opens no file). -/
theorem flush_without_open_file_is_noop (rf : RollingFile T)
    (h : rf.file = none) : rf.flush = (.ok (), rf) := by
  simp [RollingFile.flush, h]

theorem flush_without_open_file_is_noop_witness :
    RollingFile.flush
      ({ file := none, directory := ".", file_name_provider := (),
         file_open_options := {}, max_file_count := none,
         rolling_conditions := [] } : RollingFile Unit) =
      (.ok (),
       { file := none, directory := ".", file_name_provider := (),
         file_open_options := {}, max_file_count := none,
         rolling_conditions := [] }) :=
  flush_without_open_file_is_noop _ rfl

/-- C7: a size condition built with a non-zero threshold `T` is built
successfully, and its `should_roll` answers `Ok(true)` exactly when the
stat's length has reached `T`. -/
theorem size_condition_fires_iff_threshold_reached (T : Nat) (s : FileStat)
    (hT : T ≠ 0) :
    ∃ c, RollingBySize.new T = .ok c ∧
      (c.shouldRoll s = .ok true ↔ T ≤ s.len) := by
  refine ⟨{ desired_size := T }, ?_, ?_⟩
  · simp [RollingBySize.new, hT]
  · simp [RollingBySize.shouldRoll]

theorem size_condition_fires_iff_threshold_reached_witness :
    (3 : Nat) ≠ 0 ∧
    ∃ c, RollingBySize.new 3 = .ok c ∧
      (c.shouldRoll { created := 0, len := 5 } = .ok true ↔
        3 ≤ FileStat.len { created := 0, len := 5 }) :=
  ⟨by decide,
   size_condition_fires_iff_threshold_reached 3 { created := 0, len := 5 }
     (by decide)⟩

/-- C8: a duration condition built with a non-zero duration `D` is built
successfully; its `should_roll` answers `Ok(true)` exactly when
`created + D ≤ now`, and the answer never depends on the stat's
length. -/
theorem duration_condition_fires_iff_age_reached (D : Nat) (now : Int)
    (s : FileStat) (hD : D ≠ 0) :
    ∃ c, RollingByDuration.new D = .ok c ∧
      (c.shouldRoll now s = .ok true ↔ s.created + (D : Int) ≤ now) ∧
      ∀ len', c.shouldRoll now { s with len := len' } = c.shouldRoll now s := by
  refine ⟨{ duration := D }, ?_, ?_, fun len' => rfl⟩
  · simp [RollingByDuration.new, hD]
  · simp [RollingByDuration.shouldRoll]

theorem duration_condition_fires_iff_age_reached_witness :
    (60 : Nat) ≠ 0 ∧
    ∃ c, RollingByDuration.new 60 = .ok c ∧
      (c.shouldRoll 100 { created := 30, len := 9 } = .ok true ↔
        FileStat.created { created := 30, len := 9 } + (60 : Int) ≤ 100) ∧
      ∀ len',
        c.shouldRoll 100 { created := (30 : Int), len := len' } =
          c.shouldRoll 100 { created := 30, len := 9 } :=
  ⟨by decide,
   duration_condition_fires_iff_age_reached 60 100 { created := 30, len := 9 }
     (by decide)⟩

/-- C4 counterexample: both zero-threshold constructors `panic!` — that
is, they abort the process — rather than reporting the failure through a
returned error value, refuting the claim's "via a return value rather
than by any crash or fatal process exit". -/
theorem zero_threshold_constructors_panic :
    RollingBySize.new 0 = .panicked "desired_size must be greater than 0" ∧
    RollingByDuration.new 0 = .panicked "duration must be greater than 0" ∧
    (RollingBySize.new 0).isPanic = true ∧
    (RollingByDuration.new 0).isPanic = true :=
  ⟨rfl, rfl, rfl, rfl⟩

/-- C4 (amended): a zero size threshold or zero duration is rejected at
construction time, but by a `panic!` (process abort), not by an error
return value; every non-zero threshold constructs successfully. -/
theorem zero_threshold_rejected_at_construction (n : Nat) :
    (n = 0 → (RollingBySize.new n).isPanic = true ∧
      (RollingByDuration.new n).isPanic = true) ∧
    (n ≠ 0 → RollingBySize.new n = .ok { desired_size := n } ∧
      RollingByDuration.new n = .ok { duration := n }) := by
  constructor <;> intro h <;>
    simp [RollingBySize.new, RollingByDuration.new, BuildResult.isPanic, h]

theorem zero_threshold_rejected_at_construction_witness :
    ((RollingBySize.new 0).isPanic = true ∧
      (RollingByDuration.new 0).isPanic = true) ∧
    (RollingBySize.new 1 = .ok { desired_size := 1 } ∧
      RollingByDuration.new 1 = .ok { duration := 1 }) :=
  ⟨(zero_threshold_rejected_at_construction 0).1 rfl,
   (zero_threshold_rejected_at_construction 1).2 (by decide)⟩

-- The default `acceptable` computed in closed form.
theorem acceptable_eq_ok_decide (p : DefaultRollingFileNameProvider)
    (file_name : String) :
    p.acceptable file_name =
      .ok (decide
        ((∀ s, p.file_name_pfx = some s → file_name.startsWith s) ∧
         (∀ s, p.file_name_suffix = some s → file_name.endsWith s))) := by
  rcases hp : p.file_name_pfx with _ | a <;>
    rcases hs : p.file_name_suffix with _ | b <;>
      simp only [DefaultRollingFileNameProvider.acceptable, hp, hs, Option.any]
  · simp
  · by_cases hb : file_name.endsWith b <;> simp [hb]
  · by_cases ha : file_name.startsWith a <;> simp [ha]
  · by_cases ha : file_name.startsWith a <;>
      by_cases hb : file_name.endsWith b <;> simp [ha, hb]

/-- C5: the default `acceptable` answers `Ok(true)` exactly when the
name starts with the configured beginning (when one is configured) and
ends with the configured suffix (when one is configured); it never
errors, and with neither configured it accepts every name — nothing in
between is validated. -/
theorem default_acceptable_checks_only_affixes
    (p : DefaultRollingFileNameProvider) (file_name : String) :
    (p.acceptable file_name = .ok true ↔
      (∀ s, p.file_name_pfx = some s → file_name.startsWith s) ∧
      (∀ s, p.file_name_suffix = some s → file_name.endsWith s)) ∧
    (p.acceptable file_name = .ok true ∨
      p.acceptable file_name = .ok false) ∧
    (p.file_name_pfx = none → p.file_name_suffix = none →
      p.acceptable file_name = .ok true) := by
  refine ⟨?_, ?_, ?_⟩
  · rw [acceptable_eq_ok_decide]
    simp
  · rw [acceptable_eq_ok_decide]
    rcases hd : decide
        ((∀ s, p.file_name_pfx = some s → file_name.startsWith s) ∧
         (∀ s, p.file_name_suffix = some s → file_name.endsWith s)) with _ | _
    · exact Or.inr rfl
    · exact Or.inl rfl
  · intro h1 h2
    simp [DefaultRollingFileNameProvider.acceptable, h1, h2, Option.any]

theorem default_acceptable_checks_only_affixes_witness :
    (DefaultRollingFileNameProvider.acceptable
        { file_name_pfx := some "app-", file_name_suffix := some ".log",
          prev_file_name_datetime := none,
          prev_file_name_datetime_hits := 0 } "app-whatever.log" = .ok true ↔
      (∀ s, (some "app-" : Option String) = some s →
        "app-whatever.log".startsWith s) ∧
      (∀ s, (some ".log" : Option String) = some s →
        "app-whatever.log".endsWith s)) ∧
    (DefaultRollingFileNameProvider.acceptable
        { file_name_pfx := some "app-", file_name_suffix := some ".log",
          prev_file_name_datetime := none,
          prev_file_name_datetime_hits := 0 } "app-whatever.log" = .ok true ∨
      DefaultRollingFileNameProvider.acceptable
        { file_name_pfx := some "app-", file_name_suffix := some ".log",
          prev_file_name_datetime := none,
          prev_file_name_datetime_hits := 0 } "app-whatever.log" = .ok false) ∧
    ((some "app-" : Option String) = none →
      (some ".log" : Option String) = none →
      DefaultRollingFileNameProvider.acceptable
        { file_name_pfx := some "app-", file_name_suffix := some ".log",
          prev_file_name_datetime := none,
          prev_file_name_datetime_hits := 0 } "app-whatever.log" = .ok true) :=
  default_acceptable_checks_only_affixes
    { file_name_pfx := some "app-", file_name_suffix := some ".log",
      prev_file_name_datetime := none, prev_file_name_datetime_hits := 0 }
    "app-whatever.log"

/-- C3: starting from any state whose remembered timestamp differs from
the formatted timestamp `datetime`, three consecutive `next_file_name`
calls in the same bucket produce `{pfx}{datetime}{suffix}`,
`{pfx}{datetime}-1{suffix}` and `{pfx}{datetime}-2{suffix}`, with the
per-bucket hit counter strictly increasing; the first of these calls is
the bucket-change call and it resets the counter to `0`, producing the
name with no `-N` disambiguator. -/
theorem bucket_collision_names_increment (p : DefaultRollingFileNameProvider)
    (datetime : String) (h : p.prev_file_name_datetime ≠ some datetime) :
    (p.next_file_name datetime).1 =
      p.file_name_pfx.getD "" ++ datetime ++ p.file_name_suffix.getD "" ∧
    (p.next_file_name datetime).2.prev_file_name_datetime_hits = 0 ∧
    ((p.next_file_name datetime).2.next_file_name datetime).1 =
      p.file_name_pfx.getD "" ++ datetime ++ "-1" ++
        p.file_name_suffix.getD "" ∧
    (((p.next_file_name datetime).2.next_file_name datetime).2.next_file_name
        datetime).1 =
      p.file_name_pfx.getD "" ++ datetime ++ "-2" ++
        p.file_name_suffix.getD "" ∧
    (p.next_file_name datetime).2.prev_file_name_datetime_hits <
      ((p.next_file_name datetime).2.next_file_name
        datetime).2.prev_file_name_datetime_hits ∧
    ((p.next_file_name datetime).2.next_file_name
        datetime).2.prev_file_name_datetime_hits <
      (((p.next_file_name datetime).2.next_file_name
        datetime).2.next_file_name datetime).2.prev_file_name_datetime_hits := by
  have hmod1 : (0 + 1) % 2 ^ 64 = 1 := by norm_num
  have hmod2 : (1 + 1) % 2 ^ 64 = 2 := by norm_num
  have hcat1 : ∀ A : String, A ++ "-" ++ toString (1 : Nat) = A ++ "-1" :=
    fun A => by
      rw [String.append_assoc]
      exact congrArg (A ++ ·) (by decide)
  have hcat2 : ∀ A : String, A ++ "-" ++ toString (2 : Nat) = A ++ "-2" :=
    fun A => by
      rw [String.append_assoc]
      exact congrArg (A ++ ·) (by decide)
  have h1 : p.next_file_name datetime =
      (p.file_name_pfx.getD "" ++ datetime ++ p.file_name_suffix.getD "",
       { p with
           prev_file_name_datetime := some datetime
           prev_file_name_datetime_hits := 0 }) := by
    simp [DefaultRollingFileNameProvider.next_file_name, h]
  have h2 : ({ p with
        prev_file_name_datetime := some datetime
        prev_file_name_datetime_hits := 0 } :
        DefaultRollingFileNameProvider).next_file_name datetime =
      (p.file_name_pfx.getD "" ++ datetime ++ "-1" ++
         p.file_name_suffix.getD "",
       { p with
           prev_file_name_datetime := some datetime
           prev_file_name_datetime_hits := 1 }) := by
    simp [DefaultRollingFileNameProvider.next_file_name, hmod1]
    rw [hcat1]
  have h3 : ({ p with
        prev_file_name_datetime := some datetime
        prev_file_name_datetime_hits := 1 } :
        DefaultRollingFileNameProvider).next_file_name datetime =
      (p.file_name_pfx.getD "" ++ datetime ++ "-2" ++
         p.file_name_suffix.getD "",
       { p with
           prev_file_name_datetime := some datetime
           prev_file_name_datetime_hits := 2 }) := by
    simp [DefaultRollingFileNameProvider.next_file_name, hmod2]
    rw [hcat2]
  rw [h1]
  simp only [h2, h3]
  norm_num

theorem bucket_collision_names_increment_witness :
    (DefaultRollingFileNameProvider.prev_file_name_datetime
        { file_name_pfx := some "app-", file_name_suffix := some ".log",
          prev_file_name_datetime := none,
          prev_file_name_datetime_hits := 0 } ≠ some "20260101T000000") ∧
    (DefaultRollingFileNameProvider.next_file_name
        { file_name_pfx := some "app-", file_name_suffix := some ".log",
          prev_file_name_datetime := none, prev_file_name_datetime_hits := 0 }
        "20260101T000000").1 =
      (some "app-" : Option String).getD "" ++ "20260101T000000" ++
        (some ".log" : Option String).getD "" :=
  ⟨by decide,
   (bucket_collision_names_increment
     { file_name_pfx := some "app-", file_name_suffix := some ".log",
       prev_file_name_datetime := none, prev_file_name_datetime_hits := 0 }
     "20260101T000000" (by decide)).1⟩

-- The short-circuit OR of `RollingFile::should_roll` answers `Ok(true)`
-- exactly when some condition answers `Ok(true)` and every condition
-- attached before it answers `Ok(false)`.
theorem condAny_ok_true_iff (stat : FileStat)
    (cs : List (FileStat → Except String Bool)) :
    condAny stat cs = .ok true ↔
      ∃ pre c post, cs = pre ++ c :: post ∧ c stat = .ok true ∧
        ∀ c' ∈ pre, c' stat = .ok false := by
  induction cs with
  | nil =>
    simp only [condAny]
    constructor
    · intro hcontra
      exact absurd hcontra (by simp)
    · rintro ⟨pre, c, post, hsplit, -, -⟩
      exact absurd hsplit.symm (List.append_ne_nil_of_right_ne_nil pre
        (List.cons_ne_nil c post))
  | cons c0 cs ih =>
    rcases h0 : c0 stat with e | b
    · simp only [condAny, h0]
      constructor
      · intro hcontra
        exact absurd hcontra (by simp)
      · rintro ⟨pre, c, post, hsplit, hc, hpre⟩
        cases pre with
        | nil =>
          simp only [List.nil_append, List.cons.injEq] at hsplit
          rw [hsplit.1] at h0
          rw [h0] at hc
          exact absurd hc (by simp)
        | cons p pre =>
          simp only [List.cons_append, List.cons.injEq] at hsplit
          have := hpre p (List.mem_cons_self p pre)
          rw [hsplit.1] at h0
          rw [h0] at this
          exact absurd this (by simp)
    · cases b
      · simp only [condAny, h0, ih]
        constructor
        · rintro ⟨pre, c, post, hsplit, hc, hpre⟩
          refine ⟨c0 :: pre, c, post, by simp [hsplit], hc, ?_⟩
          intro c' hc'
          rcases List.mem_cons.mp hc' with rfl | hmem
          · exact h0
          · exact hpre c' hmem
        · rintro ⟨pre, c, post, hsplit, hc, hpre⟩
          cases pre with
          | nil =>
            simp only [List.nil_append, List.cons.injEq] at hsplit
            rw [hsplit.1] at h0
            rw [h0] at hc
            exact absurd hc (by simp)
          | cons p pre =>
            simp only [List.cons_append, List.cons.injEq] at hsplit
            exact ⟨pre, c, post, hsplit.2, hc,
              fun c' hc' => hpre c' (List.mem_cons_of_mem p hc')⟩
      · simp only [condAny, h0, true_iff]
        exact ⟨[], c0, cs, rfl, h0, by simp⟩

/-- C2 (amended): `should_roll` answers `Ok(true)` when no file is open;
when a file is open it answers `Ok(true)` exactly when some attached
condition answers `Ok(true)` for the current stat and every condition
attached before it answers `Ok(false)` (the conditions are tried in
attachment order, and an error from an earlier condition propagates as
the overall result instead of being skipped). -/
theorem should_roll_true_iff_first_firing_condition (rf : RollingFile T) :
    (rf.file = none → rf.shouldRoll = .ok true) ∧
    ∀ file, rf.file = some file →
      (rf.shouldRoll = .ok true ↔
        ∃ pre c post, rf.rolling_conditions = pre ++ c :: post ∧
          c file.stat = .ok true ∧ ∀ c' ∈ pre, c' file.stat = .ok false) := by
  constructor
  · intro h
    simp [RollingFile.shouldRoll, h]
  · intro file h
    rw [RollingFile.shouldRoll, h]
    exact condAny_ok_true_iff file.stat rf.rolling_conditions

theorem should_roll_true_iff_first_firing_condition_witness :
    RollingFile.shouldRoll
      ({ file := none, directory := ".", file_name_provider := (),
         file_open_options := {}, max_file_count := none,
         rolling_conditions := [] } : RollingFile Unit) = .ok true ∧
    RollingFile.shouldRoll
      ({ file := some { stat := { created := 0, len := 7 } },
         directory := ".", file_name_provider := (),
         file_open_options := {}, max_file_count := none,
         rolling_conditions := [fun s => .ok (decide (5 ≤ s.len))] } :
        RollingFile Unit) = .ok true :=
  ⟨(should_roll_true_iff_first_firing_condition _).1 rfl,
   ((should_roll_true_iff_first_firing_condition _).2
       { stat := { created := 0, len := 7 } } rfl).mpr
     ⟨[], fun s => .ok (decide (5 ≤ s.len)), [], rfl, rfl,
      fun _ hc => absurd hc (List.not_mem_nil _)⟩⟩

/-- C2 counterexample: with a file open and the attached conditions
being first one that errors and then one that answers `Ok(true)`, some
attached condition returns true for the current stat, yet `should_roll`
returns the error rather than `Ok(true)` — so "Ok(true) iff at least one
attached condition returns true" fails as stated. -/
theorem should_roll_error_despite_true_condition :
    RollingFile.shouldRoll
      ({ file := some { stat := { created := 0, len := 0 } },
         directory := ".", file_name_provider := (),
         file_open_options := {}, max_file_count := none,
         rolling_conditions :=
           [fun _ => .error "boom", fun _ => .ok true] } :
        RollingFile Unit) = .error "boom" ∧
    (fun _ => (.ok true : Except String Bool)) ∈
      ([fun _ => .error "boom", fun _ => .ok true] :
        List (FileStat → Except String Bool)) ∧
    (fun _ => (.ok true : Except String Bool))
      ({ created := 0, len := 0 } : FileStat) = .ok true :=
  ⟨rfl, List.mem_cons_of_mem _ (List.mem_cons_self _ _), rfl⟩

-- When no raw directory-entry or metadata call fails, the first collect
-- returns every entry.
theorem collectEntries_clean (es : List FsEntry)
    (h : ∀ e ∈ es, e.entryErr = none ∧ e.metaErr = none) :
    collectEntries es = .ok es := by
  induction es with
  | nil => rfl
  | cons e es ih =>
    obtain ⟨h1, h2⟩ := h e (List.mem_cons_self e es)
    simp [collectEntries, h1, h2,
      ih fun x hx => h x (List.mem_cons_of_mem e hx), Except.map]

-- When `acceptable` and `created` succeed on every entry, the selection
-- yields exactly the accepted regular files paired with their creation
-- times, in directory order.
theorem selectLogFiles_clean (acc : String → Except String Bool)
    (es : List FsEntry)
    (h : ∀ e ∈ es, (acc e.name).isOk = true ∧ e.createdErr = none) :
    selectLogFiles acc es =
      .ok ((es.filter (isLogFile acc)).map fun e => (e, e.created)) := by
  induction es with
  | nil => rfl
  | cons e es ih =>
    obtain ⟨hok, hcr⟩ := h e (List.mem_cons_self e es)
    have ih' := ih fun x hx => h x (List.mem_cons_of_mem e hx)
    rcases hacc : acc e.name with err | b
    · rw [hacc] at hok
      exact absurd hok (by simp [Except.isOk, Except.toBool])
    · cases hf : e.isFile
      · simp [selectLogFiles, hf, isLogFile, List.filter_cons, ih']
      · cases b
        · simp [selectLogFiles, hf, hacc, isLogFile, List.filter_cons, ih']
        · simp [selectLogFiles, hf, hacc, hcr, isLogFile, List.filter_cons,
            ih', Except.map]

-- When no `remove_file` call fails, the deletion loop deletes exactly
-- the listed entries, in order, and succeeds.
theorem removeAll_clean (ps : List (FsEntry × Nat))
    (h : ∀ p ∈ ps, p.1.removeErr = none) :
    removeAll ps = (ps.map fun p => p.1.name, .ok ()) := by
  induction ps with
  | nil => rfl
  | cons p ps ih =>
    have h1 := h p (List.mem_cons_self p ps)
    simp [removeAll, h1, ih fun x hx => h x (List.mem_cons_of_mem p hx)]

theorem insertByCreatedDesc_perm (p : FsEntry × Nat)
    (l : List (FsEntry × Nat)) : (insertByCreatedDesc p l).Perm (p :: l) := by
  induction l with
  | nil => exact List.Perm.refl _
  | cons q qs ih =>
    by_cases hle : q.2 ≤ p.2
    · simp only [insertByCreatedDesc, if_pos hle]
      exact List.Perm.refl _
    · simp only [insertByCreatedDesc, if_neg hle]
      exact (ih.cons q).trans (List.Perm.swap p q qs)

theorem insertByCreatedDesc_pairwise (p : FsEntry × Nat)
    (l : List (FsEntry × Nat))
    (h : l.Pairwise fun a b => b.2 ≤ a.2) :
    (insertByCreatedDesc p l).Pairwise fun a b => b.2 ≤ a.2 := by
  induction l with
  | nil => simp [insertByCreatedDesc]
  | cons q qs ih =>
    obtain ⟨hq, hqs⟩ := List.pairwise_cons.mp h
    by_cases hle : q.2 ≤ p.2
    · simp only [insertByCreatedDesc, if_pos hle]
      refine List.pairwise_cons.mpr ⟨?_, h⟩
      intro b hb
      rcases List.mem_cons.mp hb with rfl | hb'
      · exact hle
      · exact le_trans (hq b hb') hle
    · simp only [insertByCreatedDesc, if_neg hle]
      refine List.pairwise_cons.mpr ⟨?_, ih hqs⟩
      intro b hb
      rcases List.mem_cons.mp
          ((insertByCreatedDesc_perm p qs).mem_iff.mp hb) with rfl | hb'
      · exact (not_le.mp hle).le
      · exact hq b hb'

theorem sortByCreatedDesc_perm (l : List (FsEntry × Nat)) :
    (sortByCreatedDesc l).Perm l := by
  induction l with
  | nil => exact List.Perm.refl _
  | cons p ps ih =>
    exact (insertByCreatedDesc_perm p (sortByCreatedDesc ps)).trans (ih.cons p)

theorem sortByCreatedDesc_pairwise (l : List (FsEntry × Nat)) :
    (sortByCreatedDesc l).Pairwise fun a b => b.2 ≤ a.2 := by
  induction l with
  | nil => simp [sortByCreatedDesc]
  | cons p ps ih => exact insertByCreatedDesc_pairwise p _ ih

-- Core of the retention argument: sorting newest-first and deleting
-- everything past the first `k` removes a complement of some `k`-element
-- newest subset.
theorem prune_core (L : List (FsEntry × Nat)) (k : Nat)
    (hrm : ∀ q ∈ L, q.1.removeErr = none) (hk : k < L.length) :
    (removeAll ((sortByCreatedDesc L).drop k)).2 = .ok () ∧
    (removeAll ((sortByCreatedDesc L).drop k)).1.length = L.length - k ∧
    ∃ kept dropped : List (FsEntry × Nat),
      (kept ++ dropped).Perm L ∧
      kept.length = k ∧
      (removeAll ((sortByCreatedDesc L).drop k)).1 =
        dropped.map (fun q => q.1.name) ∧
      (∀ a ∈ kept, ∀ b ∈ dropped, b.2 ≤ a.2) ∧
      (∀ b ∈ dropped, b ∈ L) := by
  have hperm := sortByCreatedDesc_perm L
  have hsorted := sortByCreatedDesc_pairwise L
  have hrem : removeAll ((sortByCreatedDesc L).drop k) =
      (((sortByCreatedDesc L).drop k).map fun q => q.1.name, .ok ()) :=
    removeAll_clean _ fun q hq =>
      hrm q (hperm.mem_iff.mp (List.mem_of_mem_drop hq))
  have hsplit : (sortByCreatedDesc L).take k ++ (sortByCreatedDesc L).drop k =
      sortByCreatedDesc L := List.take_append_drop k (sortByCreatedDesc L)
  rw [hrem]
  refine ⟨rfl, ?_, (sortByCreatedDesc L).take k, (sortByCreatedDesc L).drop k,
    ?_, ?_, rfl, ?_, ?_⟩
  · rw [List.length_map, List.length_drop, hperm.length_eq]
  · rw [hsplit]
    exact hperm
  · rw [List.length_take, hperm.length_eq]
    exact min_eq_left (le_of_lt hk)
  · rw [← hsplit] at hsorted
    exact (List.pairwise_append.mp hsorted).2.2
  · exact fun b hb => hperm.mem_iff.mp (List.mem_of_mem_drop hb)

/-- C1: with a clean directory state (listing, metadata, creation-time
and remove calls all succeed and the provider's `acceptable` never
errors) holding `N` acceptable regular files and `k < N`, the prune
succeeds, deletes exactly `N - k` names, and those names are exactly the
acceptable regular files outside some `k`-element kept set every member
of which is at least as newly created as every deleted file; every
deleted name belongs to an acceptable regular file, so a file the policy
rejects (or a non-regular entry) is never deleted. -/
theorem retention_deletes_all_but_k_newest_acceptable
    (acc : String → Except String Bool) (k : Nat) (d : Dir)
    (hlist : d.listErr = none)
    (hclean : ∀ e ∈ d.entries, e.entryErr = none ∧ e.metaErr = none ∧
      e.createdErr = none ∧ e.removeErr = none ∧ (acc e.name).isOk = true)
    (hk : k < (d.entries.filter (isLogFile acc)).length) :
    (something acc (some k) d).2 = .ok () ∧
    (something acc (some k) d).1.length =
      (d.entries.filter (isLogFile acc)).length - k ∧
    ∃ kept dropped : List (FsEntry × Nat),
      (kept ++ dropped).Perm
        ((d.entries.filter (isLogFile acc)).map fun e => (e, e.created)) ∧
      kept.length = k ∧
      (something acc (some k) d).1 = dropped.map (fun q => q.1.name) ∧
      (∀ a ∈ kept, ∀ b ∈ dropped, b.2 ≤ a.2) ∧
      (∀ b ∈ dropped, b.1 ∈ d.entries ∧ isLogFile acc b.1 = true ∧
        b.2 = b.1.created) := by
  have hcol : collectEntries d.entries = .ok d.entries :=
    collectEntries_clean d.entries fun e he =>
      ⟨(hclean e he).1, (hclean e he).2.1⟩
  have hsel : selectLogFiles acc d.entries =
      .ok ((d.entries.filter (isLogFile acc)).map fun e => (e, e.created)) :=
    selectLogFiles_clean acc d.entries fun e he =>
      ⟨(hclean e he).2.2.2.2, (hclean e he).2.2.1⟩
  have hmemlog : ∀ b ∈ (d.entries.filter (isLogFile acc)).map
      fun e => (e, e.created),
      b.1 ∈ d.entries ∧ isLogFile acc b.1 = true ∧ b.2 = b.1.created := by
    intro b hb
    obtain ⟨e, he, rfl⟩ := List.mem_map.mp hb
    exact ⟨(List.mem_filter.mp he).1, (List.mem_filter.mp he).2, rfl⟩
  have hk' : k < ((d.entries.filter (isLogFile acc)).map
      fun e => (e, e.created)).length := by
    rw [List.length_map]
    exact hk
  obtain ⟨h1, h2, kept, dropped, hpm, hkl, hdel, hbd, hsub⟩ :=
    prune_core ((d.entries.filter (isLogFile acc)).map fun e => (e, e.created))
      k (fun q hq => (hclean q.1 (hmemlog q hq).1).2.2.2.1) hk'
  have hsome : something acc (some k) d =
      removeAll ((sortByCreatedDesc ((d.entries.filter (isLogFile acc)).map
        fun e => (e, e.created))).drop k) := by
    simp [something, hlist, hcol, hsel]
  rw [hsome]
  refine ⟨h1, ?_, kept, dropped, hpm, hkl, hdel, hbd,
    fun b hb => hmemlog b (hsub b hb)⟩
  rw [h2, List.length_map]

/-- C6: if the directory listing fails, or any entry's raw read or
metadata call fails, or the provider's `acceptable` or the creation-time
read errors on any surviving entry, the whole prune returns that error
and deletes nothing at all (all those checks happen before the first
deletion). -/
theorem prune_aborts_cleanly_on_scan_error
    (acc : String → Except String Bool) (k : Nat) (d : Dir) :
    (∀ err, d.listErr = some err →
      something acc (some k) d = ([], .error err)) ∧
    (∀ err, d.listErr = none → collectEntries d.entries = .error err →
      something acc (some k) d = ([], .error err)) ∧
    (∀ err es, d.listErr = none → collectEntries d.entries = .ok es →
      selectLogFiles acc es = .error err →
      something acc (some k) d = ([], .error err)) := by
  refine ⟨?_, ?_, ?_⟩
  · intro err h
    simp [something, h]
  · intro err h1 h2
    simp [something, h1, h2]
  · intro err es h1 h2 h3
    simp [something, h1, h2, h3]

theorem retention_deletes_all_but_k_newest_acceptable_witness :
    (something (fun s => .ok (decide (s ≠ "other"))) (some 1)
        { listErr := none,
          entries :=
            [{ name := "app-a", isFile := true, created := 10 },
             { name := "app-b", isFile := true, created := 30 },
             { name := "app-c", isFile := true, created := 20 },
             { name := "other", isFile := true, created := 99 },
             { name := "app-dir", isFile := false, created := 50 }] }).2 =
      .ok () ∧
    (something (fun s => .ok (decide (s ≠ "other"))) (some 1)
        { listErr := none,
          entries :=
            [{ name := "app-a", isFile := true, created := 10 },
             { name := "app-b", isFile := true, created := 30 },
             { name := "app-c", isFile := true, created := 20 },
             { name := "other", isFile := true, created := 99 },
             { name := "app-dir", isFile := false, created := 50 }] }).1.length =
      (List.filter (isLogFile fun s => .ok (decide (s ≠ "other")))
        [{ name := "app-a", isFile := true, created := 10 },
         { name := "app-b", isFile := true, created := 30 },
         { name := "app-c", isFile := true, created := 20 },
         { name := "other", isFile := true, created := 99 },
         { name := "app-dir", isFile := false, created := 50 }]).length - 1 :=
  ⟨(retention_deletes_all_but_k_newest_acceptable
      (fun s => .ok (decide (s ≠ "other"))) 1
      { listErr := none,
        entries :=
          [{ name := "app-a", isFile := true, created := 10 },
           { name := "app-b", isFile := true, created := 30 },
           { name := "app-c", isFile := true, created := 20 },
           { name := "other", isFile := true, created := 99 },
           { name := "app-dir", isFile := false, created := 50 }] }
      rfl (by decide) (by decide)).1,
   (retention_deletes_all_but_k_newest_acceptable
      (fun s => .ok (decide (s ≠ "other"))) 1
      { listErr := none,
        entries :=
          [{ name := "app-a", isFile := true, created := 10 },
           { name := "app-b", isFile := true, created := 30 },
           { name := "app-c", isFile := true, created := 20 },
           { name := "other", isFile := true, created := 99 },
           { name := "app-dir", isFile := false, created := 50 }] }
      rfl (by decide) (by decide)).2.1⟩

theorem prune_aborts_cleanly_on_scan_error_witness :
    something (fun _ => .ok true) (some 1)
      { listErr := some "lsboom", entries := [] } = ([], .error "lsboom") ∧
    something (fun _ => .ok true) (some 1)
      { listErr := none,
        entries := [{ name := "x", isFile := true, created := 0,
                      entryErr := some "eboom" }] } = ([], .error "eboom") ∧
    something (fun _ => .ok true) (some 1)
      { listErr := none,
        entries := [{ name := "y", isFile := true, created := 0,
                      createdErr := some "cboom" }] } = ([], .error "cboom") :=
  ⟨(prune_aborts_cleanly_on_scan_error (fun _ => .ok true) 1
      { listErr := some "lsboom", entries := [] }).1 "lsboom" rfl,
   (prune_aborts_cleanly_on_scan_error (fun _ => .ok true) 1
      { listErr := none,
        entries := [{ name := "x", isFile := true, created := 0,
                      entryErr := some "eboom" }] }).2.1 "eboom" rfl rfl,
   (prune_aborts_cleanly_on_scan_error (fun _ => .ok true) 1
      { listErr := none,
        entries := [{ name := "y", isFile := true, created := 0,
                      createdErr := some "cboom" }] }).2.2 "cboom"
     [{ name := "y", isFile := true, created := 0,
        createdErr := some "cboom" }] rfl rfl rfl⟩

end Foll
